import Mathlib

set_option maxRecDepth 8000

/-
  Shallow embedding of src/app.py (CTV tile generator).

  Strings are modelled as `List Char`.  Network fetches, file reads, SVG
  conversion, font loading and resampling/glyph rasterisation are opaque
  capabilities collected in an `Env`; each fallible capability returns
  `Except String _`, modelling a Python call that either returns a value or
  raises.  Python `try/except` blocks are modelled by matching on the
  `Except` value; code outside a `try` that calls a fallible capability
  propagates the `Except.error`, modelling an uncaught exception.
-/

/- ===== models of the two `re` idioms used in app.py ===== -/

def listStartsWith : List Char → List Char → Bool
  | [], _ => true
  | _ :: _, [] => false
  | p :: ps, c :: cs => (p == c) && listStartsWith ps cs

/-- One attempt of `re.search` at a fixed position, for patterns of the shape
`<literal pat>(<char class p>)+`: the literal must be present, followed by at
least one character satisfying `p`; the capture is the maximal run. -/
def matchCapture (pat : List Char) (p : Char → Bool) (s : List Char) : Option (List Char) :=
  if listStartsWith pat s then
    match (s.drop pat.length).takeWhile p with
    | [] => none
    | c :: cs => some (c :: cs)
  else none

/-- `re.search`: leftmost position where the pattern matches, greedy capture. -/
def reSearchCapture (pat : List Char) (p : Char → Bool) : List Char → Option (List Char)
  | [] => matchCapture pat p []
  | c :: cs =>
    match matchCapture pat p (c :: cs) with
    | some cap => some cap
    | none => reSearchCapture pat p cs

def containsPat (pat : List Char) : List Char → Bool
  | [] => listStartsWith pat []
  | c :: cs => listStartsWith pat (c :: cs) || containsPat pat cs

def idPat : List Char := ['i', 'd', '=']

/-- `extract_app_id` (app.py lines 15-17):
`match = re.search(r'id=([^&]+)', play_store_url); return match.group(1) if match else None`. -/
def extract_app_id (play_store_url : List Char) : Option (List Char) :=
  reSearchCapture idPat (fun c => c != '&') play_store_url

def quoteChar : Char := Char.ofNat 34

def cdnPat : List Char := "https://play-lh.googleusercontent.com/".toList

/-- The icon-CDN search in `fetch_app_icon` (line 26):
`re.search(r'https://play-lh\.googleusercontent\.com/[^"]+', response.text)`, group(0). -/
def findIconUrl (html : List Char) : Option (List Char) :=
  match reSearchCapture cdnPat (fun c => c != quoteChar) html with
  | none => none
  | some cap => some (cdnPat ++ cap)

/-- Does `=s<digit>` start at this position? (head of a `=s\d+` match). -/
def startsSizeTok : List Char → Bool
  | a :: b :: c :: _ => a == '=' && (b == 's' && c.isDigit)
  | _ => false

def hasSizeTok : List Char → Bool
  | [] => false
  | c :: cs => startsSizeTok (c :: cs) || hasSizeTok cs

/-- `re.sub(r'=s\d+', '=s512', url)` (line 28): scan left to right; every
match of `=s\d+` (greedy digits) is replaced by `=s512`; scanning resumes
after the consumed match. -/
def subs512 : List Char → List Char
  | [] => []
  | c :: cs =>
    if startsSizeTok (c :: cs) then
      '=' :: 's' :: '5' :: '1' :: '2' :: subs512 ((cs.drop 1).dropWhile Char.isDigit)
    else
      c :: subs512 cs
termination_by l => l.length
decreasing_by
  · have h1 : ((cs.drop 1).dropWhile Char.isDigit).length ≤ (cs.drop 1).length := by
      generalize cs.drop 1 = l
      induction l with
      | nil => simp [List.dropWhile]
      | cons a l ih =>
        rw [List.dropWhile_cons]
        by_cases h : Char.isDigit a
        · rw [if_pos h]
          simp only [List.length_cons]
          omega
        · rw [if_neg h]
    have h2 := List.length_drop 1 cs
    simp only [List.length_cons]
    omega
  · simp only [List.length_cons]
    omega

/- ===== raster images, fonts, and the opaque-capability environment ===== -/

abbrev Rgba : Type := Nat × Nat × Nat × Nat

def alphaOf (p : Rgba) : Nat := p.2.2.2

structure GrayImg where
  width : Nat
  height : Nat
  px : Nat → Nat → Nat

structure Img where
  width : Nat
  height : Nat
  px : Nat → Nat → Rgba

inductive Font where
  | truetypeArial : Nat → Font
  | fallback : Font

/-- Opaque platform capabilities: `requests.get`, `Image.open(BytesIO(..))`,
`cairosvg.svg2png`, `Image.open(<path>)`, `ImageFont.truetype("arialbd.ttf", sz)`,
`ImageFont.list()` membership, `draw.textbbox` width, resampling and glyph
rasterisation.  Fallible ones return `Except String _` (error = raised exception). -/
structure Env where
  get : List Char → Except String (List Char)
  decodeImage : List Char → Except String Img
  svg2png : Nat → Except String Unit
  openFile : List Char → Except String Img
  truetype : Nat → Except String Font
  fontList : List (List Char)
  textWidth : Font → List Char → Nat
  resamplePx : Img → Nat → Nat → Nat → Nat → Rgba
  textPx : Img → Int → Int → List Char → Font → Nat → Nat → Rgba

/- ===== geometry of PIL's rounded_rectangle ===== -/

/-- Distance of `v` below `lo` or above `hi` (0 when inside the band). -/
def distOut (lo hi v : Nat) : Nat :=
  if v < lo then lo - v else if hi < v then v - hi else 0

/-- Ideal rasterisation of `ImageDraw.rounded_rectangle([(x0,y0),(x1,y1)], radius=r)`:
a pixel is filled iff it lies in the bounding box and within distance `r` of the
central cross (equivalently: inside the rounded rectangle whose quarter-disc
centres sit at `(x0+r,y0+r)`, `(x1-r,y0+r)`, `(x0+r,y1-r)`, `(x1-r,y1-r)`). -/
def inRoundedBox (x0 y0 x1 y1 r x y : Nat) : Bool :=
  decide (x0 ≤ x) && decide (x ≤ x1) && decide (y0 ≤ y) && decide (y ≤ y1) &&
    decide (distOut (x0 + r) (x1 - r) x * distOut (x0 + r) (x1 - r) x
      + distOut (y0 + r) (y1 - r) y * distOut (y0 + r) (y1 - r) y ≤ r * r)

/-- `create_rounded_rectangle_mask` (lines 35-39): a single-channel image of the
given square size, 0 outside, 255 inside
`draw.rounded_rectangle([(0, 0), size], radius=radius, fill=255)`.
Note the box's far corner is `(size, size)`, one pixel beyond the image. -/
def create_rounded_rectangle_mask (size radius : Nat) : GrayImg :=
  GrayImg.mk size size (fun x y => if inRoundedBox 0 0 size size radius x y then 255 else 0)

/- ===== PIL image operations used by app.py ===== -/

def Img.resize (env : Env) (img : Img) (w h : Nat) : Img :=
  Img.mk w h (env.resamplePx img w h)

/-- `dst.paste(src, (x0, y0))` without a mask: all channels copied. -/
def Img.pasteFull (dst src : Img) (x0 y0 : Nat) : Img :=
  Img.mk dst.width dst.height (fun x y =>
    if x0 ≤ x ∧ x < x0 + src.width ∧ y0 ≤ y ∧ y < y0 + src.height then
      src.px (x - x0) (y - y0)
    else dst.px x y)

/-- Alpha-over compositing of one source pixel onto a destination pixel. -/
def overPx (s d : Rgba) : Rgba :=
  ((s.1 * alphaOf s + d.1 * (255 - alphaOf s)) / 255,
   (s.2.1 * alphaOf s + d.2.1 * (255 - alphaOf s)) / 255,
   (s.2.2.1 * alphaOf s + d.2.2.1 * (255 - alphaOf s)) / 255,
   alphaOf d)

/-- `dst.paste(src, (x0, y0), src)`: paste through the source's own alpha. -/
def Img.pasteAlpha (dst src : Img) (x0 y0 : Nat) : Img :=
  Img.mk dst.width dst.height (fun x y =>
    if x0 ≤ x ∧ x < x0 + src.width ∧ y0 ≤ y ∧ y < y0 + src.height then
      overPx (src.px (x - x0) (y - y0)) (dst.px x y)
    else dst.px x y)

/-- `img.putalpha(mask)`: the whole alpha channel is replaced by the mask. -/
def Img.putalpha (img : Img) (m : GrayImg) : Img :=
  Img.mk img.width img.height (fun x y =>
    ((img.px x y).1, (img.px x y).2.1, (img.px x y).2.2.1, m.px x y))

/-- `draw.text(...)`: pixels change (via the opaque rasteriser), dimensions do not. -/
def Img.drawText (env : Env) (img : Img) (x y : Int) (txt : List Char) (f : Font) : Img :=
  Img.mk img.width img.height (env.textPx img x y txt f)

/-- `draw.rounded_rectangle(..., fill=col)` directly on a canvas. -/
def Img.drawRoundedRect (img : Img) (x0 y0 x1 y1 r : Nat) (col : Rgba) : Img :=
  Img.mk img.width img.height (fun x y =>
    if inRoundedBox x0 y0 x1 y1 r x y then col else img.px x y)

/- ===== constants (app.py lines 10-12) ===== -/

def TILE_WIDTH : Nat := 480
def TILE_HEIGHT : Nat := 270
/-- `ICON_SIZE = int(TILE_HEIGHT * 0.7)`.  In Python float arithmetic
`270 * 0.7 = 188.99999999999997`, so `int()` truncates to 188. -/
def ICON_SIZE : Nat := 188
def BADGE_WIDTH : Nat := 180

def appStoreBadgeUrl : List Char :=
  "https://tools.applemediaservices.com/api/badges/download-on-the-app-store/black/en-us".toList
def googleBadgeUrl : List Char :=
  "https://play.google.com/intl/en_us/badges/static/images/badges/en_badge_web_generic.png".toList
def appStoreTempName : List Char := "app_store_badge_temp.png".toList
def googlePlayPngName : List Char := "google_play_badge.png".toList
def arialName : List Char := "arialbd.ttf".toList
def ctaText : List Char := "TAP TO INSTALL".toList

def detailsUrl (appId : List Char) : List Char :=
  "https://play.google.com/store/apps/details?id=".toList ++ appId

/- ===== Python string helpers used by the script ===== -/

def pyUpper (s : List Char) : List Char := s.map Char.toUpper
def pyLower (s : List Char) : List Char := s.map Char.toLower
def pyReplaceSpace (s : List Char) : List Char :=
  s.map (fun c => if c = ' ' then '_' else c)

/- ===== fetch_app_icon (lines 19-33) ===== -/

/-- `fetch_app_icon`: the whole body sits inside `try/except`, and the invalid-URL
branch returns `None` after a soft warning, so every failure path yields `none`:
missing identifier, a raising HTML fetch, no CDN pattern in the page (implicit
`return None` by falling off the function), a raising icon fetch, or a raising
image decode.  On success it returns the decoded image. -/
def fetch_app_icon (env : Env) (url : List Char) : Option Img :=
  match extract_app_id url with
  | none => none
  | some appId =>
    match env.get (detailsUrl appId) with
    | .error _ => none
    | .ok html =>
      match findIconUrl html with
      | none => none
      | some iconUrl =>
        match env.get (subs512 iconUrl) with
        | .error _ => none
        | .ok bytes =>
          match env.decodeImage bytes with
          | .error _ => none
          | .ok img => some img

/- ===== badge loaders (lines 41-71) ===== -/

/-- `badge.resize((width*2, int(width*2*aspect)), LANCZOS)` with
`aspect = badge.height / badge.width`; the float product is modelled by
natural-number floor division. -/
def resizeBadge (env : Env) (badge : Img) (width : Nat) : Img :=
  Img.resize env badge (width * 2) (width * 2 * badge.height / badge.width)

/-- `load_app_store_badge` (lines 41-57): `try` cairosvg-convert the local SVG and
open the temp PNG; on any exception, fall back to downloading Apple's badge.
The fallback itself is NOT protected: if `requests.get`/`Image.open` raise
there, the exception propagates to the caller. -/
def load_app_store_badge (env : Env) (width : Nat) : Except String Img :=
  match (env.svg2png (width * 2)).bind (fun _ => env.openFile appStoreTempName) with
  | .ok badge => .ok badge
  | .error _ =>
    (env.get appStoreBadgeUrl).bind (fun bytes =>
      (env.decodeImage bytes).map (fun badge => resizeBadge env badge width))

/-- `load_google_play_badge` (lines 59-71): `try` the local PNG; on any exception,
fall back to downloading Google's badge.  The fallback is NOT protected. -/
def load_google_play_badge (env : Env) (width : Nat) : Except String Img :=
  match (env.openFile googlePlayPngName).map (fun b => resizeBadge env b width) with
  | .ok b => .ok b
  | .error _ =>
    (env.get googleBadgeUrl).bind (fun bytes =>
      (env.decodeImage bytes).map (fun badge => resizeBadge env badge width))

/- ===== fonts (lines 100-103 and 121) ===== -/

/-- Lines 100-103: `try: font = ImageFont.truetype("arialbd.ttf", 40*2)
except: font = ImageFont.load_default()`. -/
def select_name_font (env : Env) : Font :=
  match env.truetype 80 with
  | .ok f => f
  | .error _ => Font.fallback

def fontListHasArial (env : Env) : Bool :=
  env.fontList.any (fun s => s == arialName)

/-- Line 121: `ImageFont.truetype("arialbd.ttf", 20*2) if "arialbd.ttf" in
ImageFont.list() else ImageFont.load_default()`.  The `truetype` call in the
then-branch is not protected by any `try`. -/
def select_cta_font (env : Env) : Except String Font :=
  if fontListHasArial env then env.truetype 40 else .ok Font.fallback

/- ===== the rounded-icon layer (lines 84-88) ===== -/

/-- Lines 84-88: resize the fetched icon to a square, build the rounded mask
(radius `int(icon_size * 0.22)` computed by the caller), paste onto a fresh
transparent RGBA canvas, then `putalpha(mask)`. -/
def icon_layer (env : Env) (appIcon : Img) (size radius : Nat) : Img :=
  Img.putalpha
    (Img.pasteFull (Img.mk size size (fun _ _ => (0, 0, 0, 0)))
      (Img.resize env appIcon size size) 0 0)
    (create_rounded_rectangle_mask size radius)

/-- Line 81: `fetch_app_icon(play_store_url) if play_store_url else None` —
Python truthiness: `None` and the empty string are falsy. -/
def optUrlIcon (env : Env) : Option (List Char) → Option Img
  | none => none
  | some [] => none
  | some (c :: cs) => fetch_app_icon env (c :: cs)

/- ===== generate_ctv_tile (lines 73-129) ===== -/

/-- `generate_ctv_tile`: 2x canvas, icon layer (or placeholder rounded
rectangle), app-name text, both badges (loader exceptions propagate — the
`if as_badge:` / `if gp_badge:` guards in the source can never see a `None`
badge because the loaders either return an image or raise), CTA text, then
downsample to the published 480x270.
Radius `int(icon_size * 0.22)` is written `icon_size * 22 / 100`
(`int(376 * 0.22) = 82 = 376 * 22 / 100`). -/
def generate_ctv_tile (env : Env) (app_name : List Char)
    (play_store_url : Option (List Char)) : Except String Img :=
  let canvas0 := Img.mk (TILE_WIDTH * 2) (TILE_HEIGHT * 2) (fun _ _ => (248, 248, 248, 255))
  let icon_size := ICON_SIZE * 2
  let app_icon := optUrlIcon env play_store_url
  let canvas1 :=
    match app_icon with
    | some ic => Img.pasteAlpha canvas0 (icon_layer env ic icon_size (icon_size * 22 / 100)) 80 60
    | none =>
      Img.drawRoundedRect canvas0 80 60 (80 + icon_size) (60 + icon_size)
        (icon_size * 22 / 100) (0, 212, 170, 255)
  let display_name := pyUpper app_name
  let font := select_name_font env
  let canvas2 :=
    Img.drawText env canvas1
      (80 + Int.fdiv ((icon_size : Int) - (env.textWidth font display_name : Int)) 2)
      (60 + (icon_size : Int) + 40) display_name font
  match load_app_store_badge env BADGE_WIDTH with
  | .error e => .error e
  | .ok as_badge =>
    match load_google_play_badge env BADGE_WIDTH with
    | .error e => .error e
    | .ok gp_badge =>
      let badgeX := TILE_WIDTH * 2 - BADGE_WIDTH * 2 - 40
      let canvas3 := Img.pasteAlpha canvas2 as_badge badgeX (TILE_HEIGHT * 2 / 2 - 160)
      let canvas4 := Img.pasteAlpha canvas3 gp_badge badgeX (TILE_HEIGHT * 2 / 2 + 40)
      match select_cta_font env with
      | .error e => .error e
      | .ok cta_font =>
        let canvas5 :=
          Img.drawText env canvas4
            ((badgeX : Int) + Int.fdiv ((BADGE_WIDTH * 2 : Int) - (env.textWidth cta_font ctaText : Int)) 2)
            ((TILE_HEIGHT * 2 : Int) - 100) ctaText cta_font
        .ok (Img.resize env canvas5 TILE_WIDTH TILE_HEIGHT)

/- ===== the Streamlit handler (lines 150-167) ===== -/

structure UIOutcome where
  errorMsg : Option (List Char)
  tile : Option Img
  downloadName : Option (List Char)

def inputErrorMsg : List Char := "Please enter an app name.".toList

def fileSuffix : List Char := "_ctv_tile_480x270.png".toList

/-- Line 164: `f"{app_name.lower().replace(' ', '_')}_ctv_tile_480x270.png"`. -/
def downloadFileName (app_name : List Char) : List Char :=
  pyReplaceSpace (pyLower app_name) ++ fileSuffix

/-- Lines 150-167: on button press, an empty app name yields only the
validation error (`st.error`); otherwise `generate_ctv_tile` runs (its
exceptions propagate to the Streamlit shell) and a tile plus download
filename are produced. -/
def handle_generate (env : Env) (pressed : Bool) (app_name play_url : List Char) :
    Except String UIOutcome :=
  match pressed with
  | false => .ok (UIOutcome.mk none none none)
  | true =>
    if app_name = [] then .ok (UIOutcome.mk (some inputErrorMsg) none none)
    else
      match generate_ctv_tile env app_name (some play_url) with
      | .error e => .error e
      | .ok tile => .ok (UIOutcome.mk none (some tile) (some (downloadFileName app_name)))

/- ===== concrete environments used by closed theorems and witnesses ===== -/

def netDownMsg : String := "network unreachable"

def stubImg : Img := Img.mk 360 120 (fun _ _ => (0, 0, 0, 255))

/-- Every capability fails: all network stubbed down, no local assets, no fonts. -/
def failEnv : Env :=
  Env.mk (fun _ => .error netDownMsg) (fun _ => .error "decode failed")
    (fun _ => .error "cairosvg unavailable") (fun _ => .error "file not found")
    (fun _ => .error "font not found") [] (fun _ _ => 0)
    (fun img _ _ => img.px) (fun img _ _ _ _ => img.px)

/-- Every capability succeeds (the fetched page contains no CDN icon URL). -/
def okEnv : Env :=
  Env.mk (fun _ => .ok []) (fun _ => .ok stubImg)
    (fun _ => .ok ()) (fun _ => .ok stubImg)
    (fun sz => .ok (Font.truetypeArial sz)) [arialName] (fun _ _ => 100)
    (fun img _ _ => img.px) (fun img _ _ _ _ => img.px)

/-- Fonts unavailable (truetype raises, arialbd.ttf unlisted); everything else works. -/
def fontFailEnv : Env :=
  Env.mk (fun _ => .ok []) (fun _ => .ok stubImg)
    (fun _ => .ok ()) (fun _ => .ok stubImg)
    (fun _ => .error "font not found") [] (fun _ _ => 100)
    (fun img _ _ => img.px) (fun img _ _ _ _ => img.px)

def exceptOk {α : Type} : Except String α → Bool
  | .ok _ => true
  | .error _ => false

def demoIcon : Img := Img.mk 10 10 (fun _ _ => (1, 2, 3, 0))

/- ===== helper lemmas ===== -/

theorem exceptOk_false_iff {α : Type} (e : Except String α) :
    exceptOk e = false ↔ ∃ m, e = .error m := by
  cases e <;> simp [exceptOk]

theorem exceptOk_true_iff {α : Type} (e : Except String α) :
    exceptOk e = true ↔ ∃ a, e = .ok a := by
  cases e <;> simp [exceptOk]

/- ===== claims ===== -/

/-- Claim C1 (code bug evidence).  The spec says `generate_ctv_tile` never raises
for a non-empty app name when network fetches are stubbed to fail and always
returns a 480x270 tile.  First conjunct: with all fetches failing and the local
badge assets unreadable, the unprotected badge-fallback fetch raises and the
exception propagates out of `generate_ctv_tile`.  Second conjunct: when the
badge loaders succeed, the claim's conclusion does hold — any storefront-URL
failure degrades softly and a 480x270 tile is returned. -/
theorem c1_generate_can_raise :
    generate_ctv_tile failEnv "Kalshi".toList (some "https://example.com".toList)
      = .error netDownMsg ∧
    (∃ t, generate_ctv_tile okEnv "Kalshi".toList (some "https://example.com".toList) = .ok t ∧
      t.width = 480 ∧ t.height = 270) := by
  exact ⟨rfl, ⟨_, rfl, rfl, rfl⟩⟩

/-- Claim C2 (code bug evidence).  When the local asset is unavailable AND the
remote fallback fetch fails, both badge loaders propagate the network exception
instead of reporting the badge unavailable, and `generate_ctv_tile` propagates
it instead of rendering with the badge layer omitted (its `if as_badge:` /
`if gp_badge:` guards are unreachable dead code for the `None` case). -/
theorem c2_badge_loaders_raise :
    load_app_store_badge failEnv BADGE_WIDTH = .error netDownMsg ∧
    load_google_play_badge failEnv BADGE_WIDTH = .error netDownMsg ∧
    generate_ctv_tile failEnv "My App".toList none = .error netDownMsg := by
  exact ⟨rfl, rfl, rfl⟩

/-- Claim C3: `fetch_app_icon` yields `none` on every failure path — missing
identifier, raising HTML fetch, icon pattern not found, raising icon fetch,
failing image decode — and never propagates an exception (its result type in
this embedding is exception-free because every raising call in the source sits
inside the function's `try`); on full success it returns the decoded image. -/
theorem c3_fetch_app_icon_soft_fail (env : Env) (url : List Char) :
    (extract_app_id url = none → fetch_app_icon env url = none) ∧
    ∀ appId, extract_app_id url = some appId →
      ((∀ e, env.get (detailsUrl appId) = .error e → fetch_app_icon env url = none) ∧
       ∀ html, env.get (detailsUrl appId) = .ok html →
         ((findIconUrl html = none → fetch_app_icon env url = none) ∧
          ∀ iconUrl, findIconUrl html = some iconUrl →
            ((∀ e, env.get (subs512 iconUrl) = .error e → fetch_app_icon env url = none) ∧
             ∀ bytes, env.get (subs512 iconUrl) = .ok bytes →
               ((∀ e, env.decodeImage bytes = .error e → fetch_app_icon env url = none) ∧
                ∀ img, env.decodeImage bytes = .ok img →
                  fetch_app_icon env url = some img)))) := by
  refine ⟨fun h => by simp [fetch_app_icon, h], fun appId hid => ⟨fun e hget => ?_, fun html hhtml => ⟨fun hfind => ?_, fun iconUrl hicon => ⟨fun e hget2 => ?_, fun bytes hbytes => ⟨fun e hdec => ?_, fun img hdec => ?_⟩⟩⟩⟩⟩
  · simp [fetch_app_icon, hid, hget]
  · simp [fetch_app_icon, hid, hhtml, hfind]
  · simp [fetch_app_icon, hid, hhtml, hicon, hget2]
  · simp [fetch_app_icon, hid, hhtml, hicon, hbytes, hdec]
  · simp [fetch_app_icon, hid, hhtml, hicon, hbytes, hdec]

/-- Witness for C3: a URL with no `id=` parameter makes the resolver return
`none` without raising. -/
theorem c3_witness :
    extract_app_id "https://example.com".toList = none ∧
    fetch_app_icon okEnv "https://example.com".toList = none :=
  ⟨by decide, (c3_fetch_app_icon_soft_fail okEnv "https://example.com".toList).1 (by decide)⟩

/-- Claim C7: when the requested font resource is unavailable at render time
(`ImageFont.truetype` raises and `arialbd.ttf` is not in the listed fonts),
both text-drawing steps substitute the built-in fallback font, and — badge
loading succeeding — the render completes with a 480x270 tile. -/
theorem c7_font_fallback (env : Env) (name url : List Char)
    (htt : ∀ sz, exceptOk (env.truetype sz) = false)
    (hlist : fontListHasArial env = false)
    (hb1 : exceptOk (load_app_store_badge env BADGE_WIDTH) = true)
    (hb2 : exceptOk (load_google_play_badge env BADGE_WIDTH) = true) :
    select_name_font env = Font.fallback ∧
    select_cta_font env = .ok Font.fallback ∧
    ∃ t, generate_ctv_tile env name (some url) = .ok t ∧ t.width = 480 ∧ t.height = 270 := by
  have h80 := (exceptOk_false_iff (env.truetype 80)).mp (htt 80)
  obtain ⟨m80, h80⟩ := h80
  have hname : select_name_font env = Font.fallback := by simp [select_name_font, h80]
  have hcta : select_cta_font env = .ok Font.fallback := by simp [select_cta_font, hlist]
  refine ⟨hname, hcta, ?_⟩
  obtain ⟨ab, hab⟩ := (exceptOk_true_iff _).mp hb1
  obtain ⟨gb, hgb⟩ := (exceptOk_true_iff _).mp hb2
  simp only [generate_ctv_tile, hab, hgb, hcta]
  exact ⟨_, rfl, rfl, rfl⟩

/-- Witness for C7: a concrete environment with no usable font but working
badge sources renders a 480x270 tile with the fallback font everywhere. -/
theorem c7_witness :
    select_name_font fontFailEnv = Font.fallback ∧
    select_cta_font fontFailEnv = .ok Font.fallback ∧
    ∃ t, generate_ctv_tile fontFailEnv "Kalshi".toList (some []) = .ok t ∧
      t.width = 480 ∧ t.height = 270 :=
  c7_font_fallback fontFailEnv "Kalshi".toList [] (fun _ => rfl) rfl rfl rfl

/-- Claim C8: with the button pressed and an empty app name, the handler
surfaces only the validation message, produces no tile and no download, and
its result does not depend on the generation environment at all (generation is
never attempted). -/
theorem c8_empty_name_blocks_generation (env : Env) (url : List Char) :
    handle_generate env true [] url = .ok (UIOutcome.mk (some inputErrorMsg) none none) ∧
    ∀ env2 : Env, handle_generate env2 true [] url = handle_generate env true [] url :=
  ⟨rfl, fun _ => rfl⟩

/-- Counterexample for C9: the code's download filename for app name Kalshi is
`kalshi_ctv_tile_480x270.png`, not the claimed `kalshi_ctv_tile.png`. -/
theorem c9_counterexample :
    downloadFileName "Kalshi".toList = "kalshi_ctv_tile_480x270.png".toList ∧
    downloadFileName "Kalshi".toList ≠
      (pyReplaceSpace (pyLower "Kalshi".toList) ++ "_ctv_tile.png".toList) := by
  exact ⟨by decide, by decide⟩

/-- Claim C9 as amended: for every non-empty app name, whenever generation
succeeds the offered download filename is the app name lowercased with spaces
replaced by underscores followed by `_ctv_tile_480x270.png` (and a failing
generation propagates instead). -/
theorem c9_download_name_amended (env : Env) (name url : List Char) (h : ¬ name = []) :
    Except.map (fun o => o.downloadName) (handle_generate env true name url) =
    Except.map (fun _ => some (pyReplaceSpace (pyLower name) ++ fileSuffix))
      (generate_ctv_tile env name (some url)) := by
  simp only [handle_generate]
  rw [if_neg h]
  cases hg : generate_ctv_tile env name (some url) <;> simp [Except.map, downloadFileName]

/-- Witness for C9's amended theorem at a concrete environment and name. -/
theorem c9_witness :
    Except.map (fun o => o.downloadName) (handle_generate okEnv true "My App".toList []) =
    Except.map (fun _ => some (pyReplaceSpace (pyLower "My App".toList) ++ fileSuffix))
      (generate_ctv_tile okEnv "My App".toList (some [])) :=
  c9_download_name_amended okEnv "My App".toList [] (by decide)

/-- Claim C10: `putalpha` makes the icon layer's alpha channel equal the
rounded-rectangle mask, so inside the rounded rectangle the composed layer is
fully opaque (alpha 255) regardless of the source icon's own transparency. -/
theorem c10_icon_layer_alpha (env : Env) (icon : Img) (size radius x y : Nat) :
    alphaOf ((icon_layer env icon size radius).px x y)
      = (create_rounded_rectangle_mask size radius).px x y ∧
    (inRoundedBox 0 0 size size radius x y = true →
      alphaOf ((icon_layer env icon size radius).px x y) = 255) := by
  constructor
  · rfl
  · intro h
    simp [icon_layer, Img.putalpha, alphaOf, create_rounded_rectangle_mask, h]

/-- Witness for C10: a fully transparent source icon still yields alpha 255 at
an interior pixel of the rounded rectangle (the render-time size and radius). -/
theorem c10_witness :
    inRoundedBox 0 0 376 376 82 188 188 = true ∧
    alphaOf ((icon_layer failEnv demoIcon 376 82).px 188 188) = 255 :=
  ⟨by decide, (c10_icon_layer_alpha failEnv demoIcon 376 82 188 188).2 (by decide)⟩

/- ===== lemmas for the regex models ===== -/

theorem startsWith_append_self (pat rest : List Char) :
    listStartsWith pat (pat ++ rest) = true := by
  induction pat with
  | nil => rfl
  | cons a as ih => simp [listStartsWith, ih]

theorem matchCapture_none (pat : List Char) (p : Char → Bool) (s : List Char)
    (h : listStartsWith pat s = false) : matchCapture pat p s = none := by
  simp [matchCapture, h]

theorem takeWhile_all_append (p : Char → Bool) :
    ∀ (x post : List Char), (∀ c ∈ x, p c = true) →
      (post = [] ∨ ∃ c t, post = c :: t ∧ p c = false) →
      (x ++ post).takeWhile p = x := by
  intro x
  induction x with
  | nil =>
    intro post _ hpost
    rcases hpost with h | ⟨c, t, rfl, hc⟩
    · simp [h]
    · simp [List.takeWhile_cons, hc]
  | cons a x ih =>
    intro post hx hpost
    have ha := hx a (by simp)
    simp only [List.cons_append, List.takeWhile_cons, ha, if_true]
    rw [ih post (fun c hc => hx c (by simp [hc])) hpost]

theorem dropWhile_all_append (p : Char → Bool) :
    ∀ (x post : List Char), (∀ c ∈ x, p c = true) →
      (post = [] ∨ ∃ c t, post = c :: t ∧ p c = false) →
      (x ++ post).dropWhile p = post := by
  intro x
  induction x with
  | nil =>
    intro post _ hpost
    rcases hpost with h | ⟨c, t, rfl, hc⟩
    · simp [h]
    · simp [List.dropWhile_cons, hc]
  | cons a x ih =>
    intro post hx hpost
    have ha := hx a (by simp)
    simp only [List.cons_append, List.dropWhile_cons, ha, if_true]
    exact ih post (fun c hc => hx c (by simp [hc])) hpost

theorem reSearchCapture_cons_none (pat : List Char) (p : Char → Bool) (c : Char)
    (cs : List Char) (h : matchCapture pat p (c :: cs) = none) :
    reSearchCapture pat p (c :: cs) = reSearchCapture pat p cs := by
  simp only [reSearchCapture, h]

theorem reSearchCapture_cons_some (pat : List Char) (p : Char → Bool) (c : Char)
    (cs cap : List Char) (h : matchCapture pat p (c :: cs) = some cap) :
    reSearchCapture pat p (c :: cs) = some cap := by
  simp only [reSearchCapture, h]

/-- Scanning for `id=` skips any prefix that does not contain `id=`: the three
literal characters cannot match while even partially inside such a prefix. -/
theorem searchCapture_skip_id (p : Char → Bool) :
    ∀ (pre z : List Char), containsPat idPat pre = false →
      reSearchCapture idPat p (pre ++ 'i' :: 'd' :: '=' :: z)
        = reSearchCapture idPat p ('i' :: 'd' :: '=' :: z) := by
  intro pre
  induction pre with
  | nil => intro z _; rfl
  | cons a pre ih =>
    intro z h
    simp only [containsPat, Bool.or_eq_false_iff] at h
    obtain ⟨h1, h2⟩ := h
    have hs : listStartsWith idPat (a :: (pre ++ 'i' :: 'd' :: '=' :: z)) = false := by
      cases pre with
      | nil =>
        simp [idPat, listStartsWith, show ('d' == 'i') = false from by decide]
      | cons b pre2 =>
        cases pre2 with
        | nil =>
          simp [idPat, listStartsWith, show ('=' == 'i') = false from by decide]
        | cons c pre3 =>
          simp only [idPat, listStartsWith, List.cons_append, Bool.and_true] at h1 ⊢
          exact h1
    rw [List.cons_append, reSearchCapture_cons_none _ _ _ _ (matchCapture_none _ _ _ hs)]
    exact ih z h2

/-- Claim C4: identifier extraction.  For every URL of the form
`pre ++ "id=" ++ x ++ post` where `pre` holds no earlier `id=` occurrence, `x`
is non-empty and `&`-free, and `post` is empty or starts with `&`, the code
returns exactly `x`; and for every URL containing no `id=` at all it returns
`none`. -/
theorem c4_extract_app_id_spec :
    (∀ pre x post : List Char, containsPat idPat pre = false → x ≠ [] →
      (∀ c ∈ x, c ≠ '&') → (post = [] ∨ ∃ t, post = '&' :: t) →
      extract_app_id (pre ++ idPat ++ x ++ post) = some x) ∧
    (∀ s : List Char, containsPat idPat s = false → extract_app_id s = none) := by
  constructor
  · intro pre x post h1 h2 h3 h4
    have hx : ∀ c ∈ x, (c != '&') = true := by
      intro c hc
      simp only [bne_iff_ne, ne_eq]
      exact h3 c hc
    have hpost : post = [] ∨ ∃ c t, post = c :: t ∧ (c != '&') = false := by
      rcases h4 with h | ⟨t, rfl⟩
      · exact Or.inl h
      · exact Or.inr ⟨'&', t, rfl, by decide⟩
    have hassoc : pre ++ idPat ++ x ++ post = pre ++ 'i' :: 'd' :: '=' :: (x ++ post) := by
      simp [idPat]
    rw [extract_app_id, hassoc, searchCapture_skip_id _ pre _ h1]
    have hstart : listStartsWith idPat ('i' :: 'd' :: '=' :: (x ++ post)) = true := by
      simp [idPat, listStartsWith]
    have hm : matchCapture idPat (fun c => c != '&') ('i' :: 'd' :: '=' :: (x ++ post))
        = some x := by
      unfold matchCapture
      rw [if_pos hstart]
      have hdrop : ('i' :: 'd' :: '=' :: (x ++ post)).drop idPat.length = x ++ post := by
        simp [idPat]
      rw [hdrop, takeWhile_all_append _ x post hx hpost]
      cases x with
      | nil => exact absurd rfl h2
      | cons c cs => rfl
    exact reSearchCapture_cons_some _ _ _ _ _ hm
  · intro s
    induction s with
    | nil => intro _; rfl
    | cons c cs ih =>
      intro h
      simp only [containsPat, Bool.or_eq_false_iff] at h
      obtain ⟨h1, h2⟩ := h
      unfold extract_app_id at ih ⊢
      rw [reSearchCapture_cons_none _ _ _ _ (matchCapture_none _ _ _ h1)]
      exact ih h2

/-- Witness for C4: a realistic listing URL yields its identifier; a URL with
no `id=` yields `none`. -/
theorem c4_witness :
    extract_app_id ("https://play.google.com/store/apps/details?".toList
      ++ idPat ++ "com.example".toList ++ "&hl=en".toList) = some "com.example".toList ∧
    extract_app_id "https://example.com/app".toList = none := by
  constructor
  · exact c4_extract_app_id_spec.1 "https://play.google.com/store/apps/details?".toList
      "com.example".toList "&hl=en".toList (by decide) (by decide)
      (by decide) (Or.inr ⟨"hl=en".toList, rfl⟩)
  · exact c4_extract_app_id_spec.2 "https://example.com/app".toList (by decide)

/- ===== lemmas for the re.sub model ===== -/

theorem subs512_noTok : ∀ s : List Char, hasSizeTok s = false → subs512 s = s := by
  intro s
  induction s with
  | nil => intro _; simp [subs512]
  | cons c cs ih =>
    intro h
    simp only [hasSizeTok, Bool.or_eq_false_iff] at h
    obtain ⟨h1, h2⟩ := h
    simp only [subs512, h1, Bool.false_eq_true, if_false]
    rw [ih h2]

/-- Claim C5: normalisation.  For a URL of the form
`pre ++ "=s" ++ ds ++ post` with no size token in `pre`, a non-empty all-digit
run `ds`, `post` not continuing the digit run and containing no further size
token, the code rewrites exactly that token to `=s512` and leaves every other
character unchanged. -/
theorem c5_subs512_single_token :
    ∀ (pre ds post : List Char), hasSizeTok pre = false → ds ≠ [] →
      (∀ c ∈ ds, c.isDigit = true) →
      (post = [] ∨ ∃ c t, post = c :: t ∧ c.isDigit = false) →
      hasSizeTok post = false →
      subs512 (pre ++ '=' :: 's' :: (ds ++ post))
        = pre ++ '=' :: 's' :: '5' :: '1' :: '2' :: post := by
  intro pre
  induction pre with
  | nil =>
    intro ds post h1 h2 h3 h4 h5
    cases ds with
    | nil => exact absurd rfl h2
    | cons d ds2 =>
      have hd : d.isDigit = true := h3 d (by simp)
      simp only [List.nil_append, List.cons_append]
      have hstart : startsSizeTok ('=' :: 's' :: d :: (ds2 ++ post)) = true := by
        simp [startsSizeTok, hd]
      simp only [subs512, hstart, if_true]
      have hdrop : ((('s' :: d :: (ds2 ++ post)).drop 1).dropWhile Char.isDigit) = post := by
        simp only [List.drop_succ_cons, List.drop_zero]
        exact dropWhile_all_append _ (d :: ds2) post h3 h4
      rw [hdrop, subs512_noTok post h5]
  | cons a pre ih =>
    intro ds post h1 h2 h3 h4 h5
    simp only [hasSizeTok, Bool.or_eq_false_iff] at h1
    obtain ⟨ha, hpre⟩ := h1
    by_cases hS : startsSizeTok (a :: (pre ++ '=' :: 's' :: (ds ++ post))) = true
    · exfalso
      cases pre with
      | nil =>
        simp [startsSizeTok, show ('=' == 's') = false from by decide] at hS
      | cons b pre2 =>
        cases pre2 with
        | nil =>
          simp [startsSizeTok, show ('=' : Char).isDigit = false from by decide] at hS
        | cons c pre3 =>
          simp only [startsSizeTok, List.cons_append] at ha hS
          rw [ha] at hS
          exact absurd hS (by decide)
    · have hb : startsSizeTok (a :: (pre ++ '=' :: 's' :: (ds ++ post))) = false := by
        simp only [Bool.not_eq_true] at hS
        exact hS
      simp only [List.cons_append, subs512, hb, Bool.false_eq_true, if_false]
      rw [ih ds post hpre h2 h3 h4 h5]

/-- Witness for C5: a CDN icon URL with a single `=s96` token is rewritten to
`=s512` with the rest untouched. -/
theorem c5_witness :
    subs512 ("https://play-lh.googleusercontent.com/abc".toList
        ++ '=' :: 's' :: ("96".toList ++ "-rw".toList))
      = "https://play-lh.googleusercontent.com/abc".toList
        ++ '=' :: 's' :: '5' :: '1' :: '2' :: "-rw".toList :=
  c5_subs512_single_token "https://play-lh.googleusercontent.com/abc".toList
    "96".toList "-rw".toList (by decide) (by decide) (by decide)
    (Or.inr ⟨'-', "rw".toList, rfl, by decide⟩) (by decide)

/- ===== lemmas for the mask geometry ===== -/

theorem inRoundedBox_eq_true_iff (x0 y0 x1 y1 r x y : Nat) :
    inRoundedBox x0 y0 x1 y1 r x y = true ↔
      (x0 ≤ x ∧ x ≤ x1 ∧ y0 ≤ y ∧ y ≤ y1 ∧
       distOut (x0 + r) (x1 - r) x * distOut (x0 + r) (x1 - r) x
         + distOut (y0 + r) (y1 - r) y * distOut (y0 + r) (y1 - r) y ≤ r * r) := by
  simp [inRoundedBox, Bool.and_eq_true, decide_eq_true_eq, and_assoc]

/-- Pure arithmetic core for C6: with radius at least 4 and at most half the
size, the mask is exactly size x size, all four image-corner pixels are
transparent and the centre pixel is opaque. -/
theorem maskGeomNat (n r : Nat) (h4 : 4 ≤ r) (hr2 : r ≤ n / 2) :
    (create_rounded_rectangle_mask n r).width = n ∧
    (create_rounded_rectangle_mask n r).height = n ∧
    (create_rounded_rectangle_mask n r).px 0 0 = 0 ∧
    (create_rounded_rectangle_mask n r).px (n - 1) 0 = 0 ∧
    (create_rounded_rectangle_mask n r).px 0 (n - 1) = 0 ∧
    (create_rounded_rectangle_mask n r).px (n - 1) (n - 1) = 0 ∧
    (create_rounded_rectangle_mask n r).px (n / 2) (n / 2) = 255 := by
  have hn8 : 8 ≤ n := by omega
  have e0 : distOut (0 + r) (n - r) 0 = r := by
    simp only [distOut]
    rw [if_pos (by omega)]
    omega
  have e1 : distOut (0 + r) (n - r) (n - 1) = r - 1 := by
    simp only [distOut]
    rw [if_neg (by omega), if_pos (by omega)]
    omega
  have ec : distOut (0 + r) (n - r) (n / 2) = 0 := by
    simp only [distOut]
    rw [if_neg (by omega), if_neg (by omega)]
  refine ⟨rfl, rfl, ?_, ?_, ?_, ?_, ?_⟩
  · have hneg : inRoundedBox 0 0 n n r 0 0 = false := by
      rw [Bool.eq_false_iff, Ne, inRoundedBox_eq_true_iff]
      intro h
      obtain ⟨-, -, -, -, hq⟩ := h
      rw [e0] at hq
      have hpos : 0 < r * r := Nat.mul_pos (by omega) (by omega)
      linarith
    simp [create_rounded_rectangle_mask, hneg]
  · have hneg : inRoundedBox 0 0 n n r (n - 1) 0 = false := by
      rw [Bool.eq_false_iff, Ne, inRoundedBox_eq_true_iff]
      intro h
      obtain ⟨-, -, -, -, hq⟩ := h
      rw [e0, e1] at hq
      have hpos : 0 < (r - 1) * (r - 1) := Nat.mul_pos (by omega) (by omega)
      linarith
    simp [create_rounded_rectangle_mask, hneg]
  · have hneg : inRoundedBox 0 0 n n r 0 (n - 1) = false := by
      rw [Bool.eq_false_iff, Ne, inRoundedBox_eq_true_iff]
      intro h
      obtain ⟨-, -, -, -, hq⟩ := h
      rw [e0, e1] at hq
      have hpos : 0 < (r - 1) * (r - 1) := Nat.mul_pos (by omega) (by omega)
      linarith
    simp [create_rounded_rectangle_mask, hneg]
  · have hneg : inRoundedBox 0 0 n n r (n - 1) (n - 1) = false := by
      rw [Bool.eq_false_iff, Ne, inRoundedBox_eq_true_iff]
      intro h
      obtain ⟨-, -, -, -, hq⟩ := h
      rw [e1] at hq
      obtain ⟨a, rfl⟩ : ∃ a, r = a + 4 := ⟨r - 4, by omega⟩
      rw [show a + 4 - 1 = a + 3 from by omega] at hq
      have hexp1 : (a + 3) * (a + 3) + (a + 3) * (a + 3)
          = 2 * (a * a) + 12 * a + 18 := by ring
      have hexp2 : (a + 4) * (a + 4) = a * a + 8 * a + 16 := by ring
      rw [hexp1, hexp2] at hq
      have haa : 0 ≤ a * a := Nat.zero_le _
      linarith
    simp [create_rounded_rectangle_mask, hneg]
  · have hpos : inRoundedBox 0 0 n n r (n / 2) (n / 2) = true := by
      rw [inRoundedBox_eq_true_iff]
      refine ⟨by omega, by omega, by omega, by omega, ?_⟩
      rw [ec]
      simp
    simp [create_rounded_rectangle_mask, hpos]

/-- Counterexample for C6: with target size 8 and corner-radius fraction 1/4
(both admitted by the claim), the integer radius is 2 and the bottom-right
image-corner pixel (7,7) of the mask has value 255, not 0 — the mask's box
`[(0,0),(size,size)]` overhangs the image by one pixel, so for small radii a
corner pixel sits inside the drawn rounded rectangle. -/
theorem c6_mask_counterexample :
    (0 < (8 : Nat)) ∧ 0 < (1/4 : ℚ) ∧ (1/4 : ℚ) ≤ 1/2 ∧
    (create_rounded_rectangle_mask 8 (Nat.floor ((1/4 : ℚ) * ((8 : Nat) : ℚ)))).px 7 7
      = 255 := by
  refine ⟨by norm_num, by norm_num, by norm_num, ?_⟩
  have hfl : Nat.floor ((1/4 : ℚ) * ((8 : Nat) : ℚ)) = 2 := by
    rw [show ((1/4 : ℚ) * ((8 : Nat) : ℚ)) = (((2 : Nat) : ℚ)) from by push_cast; norm_num]
    exact Nat.floor_natCast 2
  rw [hfl]
  decide

/-- Claim C6 as amended: for any positive target size and fraction in (0, 1/2]
whose integer radius `floor(fraction * size)` is at least 4, the mask has
exactly the requested square dimensions, all four corner pixels are fully
transparent (0) and the centre pixel is fully opaque (255).  (For radii 0-3
some corner pixels remain opaque, as the counterexample shows.) -/
theorem c6_mask_geometry (n : Nat) (f : ℚ) (r : Nat)
    (hn : 0 < n) (_hf0 : 0 < f) (hf : f ≤ 1/2)
    (hr : r = Nat.floor (f * (n : ℚ))) (h4 : 4 ≤ r) :
    (create_rounded_rectangle_mask n r).width = n ∧
    (create_rounded_rectangle_mask n r).height = n ∧
    (create_rounded_rectangle_mask n r).px 0 0 = 0 ∧
    (create_rounded_rectangle_mask n r).px (n - 1) 0 = 0 ∧
    (create_rounded_rectangle_mask n r).px 0 (n - 1) = 0 ∧
    (create_rounded_rectangle_mask n r).px (n - 1) (n - 1) = 0 ∧
    (create_rounded_rectangle_mask n r).px (n / 2) (n / 2) = 255 := by
  have hr2 : r ≤ n / 2 := by
    have hle : f * (n : ℚ) ≤ (n : ℚ) / 2 := by
      have hn0 : (0 : ℚ) ≤ (n : ℚ) := by positivity
      calc f * (n : ℚ) ≤ (1/2) * (n : ℚ) := mul_le_mul_of_nonneg_right hf hn0
        _ = (n : ℚ) / 2 := by ring
    have hmono : Nat.floor (f * (n : ℚ)) ≤ Nat.floor ((n : ℚ) / 2) :=
      Nat.floor_le_floor hle
    have hhalf : Nat.floor ((n : ℚ) / 2) = n / 2 := by
      rw [show ((n : ℚ) / 2) = ((n : ℚ) / ((2 : Nat) : ℚ)) from by norm_num]
      rw [Nat.floor_div_nat, Nat.floor_natCast]
    rw [hr]
    rw [hhalf] at hmono
    exact hmono
  exact maskGeomNat n r h4 hr2

/-- Witness for C6's amended theorem: size 400, fraction 1/4, radius 100. -/
theorem c6_witness :
    (create_rounded_rectangle_mask 400 100).width = 400 ∧
    (create_rounded_rectangle_mask 400 100).height = 400 ∧
    (create_rounded_rectangle_mask 400 100).px 0 0 = 0 ∧
    (create_rounded_rectangle_mask 400 100).px 399 0 = 0 ∧
    (create_rounded_rectangle_mask 400 100).px 0 399 = 0 ∧
    (create_rounded_rectangle_mask 400 100).px 399 399 = 0 ∧
    (create_rounded_rectangle_mask 400 100).px 200 200 = 255 :=
  c6_mask_geometry 400 (1/4) 100 (by norm_num) (by norm_num) (by norm_num)
    (by
      rw [show ((1/4 : ℚ) * ((400 : Nat) : ℚ)) = (((100 : Nat) : ℚ)) from by push_cast; norm_num]
      rw [Nat.floor_natCast])
    (by norm_num)
